import Mathlib

/-!
Verification of the NationalMap MBTiles downloader
(`scripts/download_nationalmap/create_nationalmap_mbtiles.py`).

The development shallowly embeds the script's pure logic:

* the Fetch Worker `download_wms_tile` (source lines 22-64) as a recursion
  over the remaining retry budget, driven by an oracle `ℕ → HttpEvent`
  giving the outcome of the HTTP GET at each attempt and a
  `jitter : ℕ → ℚ` oracle standing for `random.uniform(0, 1)`;
* the Tile Store (the sqlite3 connection) as a `Conn` carrying the
  committed rows and the rows inserted since the last `commit`;
  `Conn.close` keeps only the committed rows, because Python's
  `sqlite3.Connection.close` does not commit: the open transaction is
  rolled back and uncommitted inserts are lost;
* the Orchestrator `create_nationalmap_mbtiles` (lines 66-207) as a fold
  over zoom levels and, per zoom, over the enumerated pending tiles, with
  the commit-every-10-completions cadence of lines 197-198.  The clamped
  tile-index rectangle of lines 134-140 is abstracted as a
  `rect : ℕ → Rect` parameter, because its corners come from `deg2num`,
  whose row component evaluates `asinh (tan lat)`; none of the claims
  about the work-set logic depend on the rectangle's numeric value.

Machine integers do not appear: Python integers are unbounded, so tile
coordinates are `ℤ` (zoom levels, which come from `range`, are `ℕ`),
payloads are byte lists `List ℕ`, and backoff durations are `ℚ`.
-/

namespace NationalMap

/-- Outcome of one `requests.get` call inside `download_wms_tile`:
an HTTP response with its status code and body, a `requests` timeout,
a `requests` connection error, or any other exception (source line 60). -/
inductive HttpEvent where
  | response (status : ℕ) (body : List ℕ)
  | timeout
  | connError
  | otherError
deriving DecidableEq

/-- Observable behaviour of one `download_wms_tile` call: the returned
value (`payload = none` models returning `None`), the number of
`requests.get` calls made, and the durations passed to `time.sleep`
in order. -/
structure FetchResult where
  payload : Option (List ℕ)
  requests : ℕ
  sleeps : List ℚ
deriving DecidableEq

/-- Backoff duration computed on source lines 49 and 56:
`(2 ** attempt) + random.uniform(0, 1)`. -/
def retryWait (jitter : ℕ → ℚ) (attempt : ℕ) : ℚ := 2 ^ attempt + jitter attempt

/-- The retry loop of `download_wms_tile` (source lines 43-63), recursing on
the remaining iterations of `for attempt in range(max_retries)`.
Branches, in source order:
status 200 with non-empty body returns the body (line 46-47); status 429
sleeps and continues (lines 48-52); any other response is logged and the
loop simply falls through to the next attempt with no sleep (lines 53-54:
the `else` arm has no `break`); a timeout or connection error sleeps only
when this is not the last attempt (lines 55-59, guard
`attempt < max_retries - 1`, i.e. `1 ≤ remaining` here); any other
exception breaks out of the loop (lines 60-62).  Falling out of the loop
returns `None` (line 64). -/
def downloadGo (oracle : ℕ → HttpEvent) (jitter : ℕ → ℚ) : ℕ → ℕ → FetchResult
  | _, 0 => ⟨none, 0, []⟩
  | attempt, remaining + 1 =>
    match oracle attempt with
    | .response s body =>
      if s = 200 ∧ body ≠ [] then ⟨some body, 1, []⟩
      else if s = 429 then
        let r := downloadGo oracle jitter (attempt + 1) remaining
        ⟨r.payload, r.requests + 1, retryWait jitter attempt :: r.sleeps⟩
      else
        let r := downloadGo oracle jitter (attempt + 1) remaining
        ⟨r.payload, r.requests + 1, r.sleeps⟩
    | .timeout =>
      let r := downloadGo oracle jitter (attempt + 1) remaining
      ⟨r.payload, r.requests + 1,
        if 1 ≤ remaining then retryWait jitter attempt :: r.sleeps else r.sleeps⟩
    | .connError =>
      let r := downloadGo oracle jitter (attempt + 1) remaining
      ⟨r.payload, r.requests + 1,
        if 1 ≤ remaining then retryWait jitter attempt :: r.sleeps else r.sleeps⟩
    | .otherError => ⟨none, 1, []⟩

/-- Embedding of `download_wms_tile` (source lines 22-64): run the retry
loop starting at attempt 0 with the full budget (`max_retries=5` by
default, line 22). -/
def download_wms_tile (oracle : ℕ → HttpEvent) (jitter : ℕ → ℚ)
    (max_retries : ℕ := 5) : FetchResult :=
  downloadGo oracle jitter 0 max_retries

/-- Events on which `download_wms_tile` does not return in the current
iteration: any response other than 200-with-non-empty-body, a timeout, or
a connection error (`otherError` breaks instead). -/
def noSuccess : HttpEvent → Prop
  | .response s body => ¬(s = 200 ∧ body ≠ [])
  | .timeout => True
  | .connError => True
  | .otherError => False

/-- Events on the retry-with-backoff path: HTTP 429, a timeout, or a
connection error. -/
def retryable : HttpEvent → Prop
  | .response s _ => s = 429
  | .timeout => True
  | .connError => True
  | .otherError => False

/-- The sleep the loop performs at attempt `a` when the run exhausts all
attempts before `cutoff`: a 429 response sleeps unconditionally, a
timeout or connection error sleeps only when another attempt remains,
and other responses never sleep. -/
def sleepOf (oracle : ℕ → HttpEvent) (jitter : ℕ → ℚ) (cutoff : ℕ) (a : ℕ) : Option ℚ :=
  match oracle a with
  | .response s _ => if s = 429 then some (retryWait jitter a) else none
  | .timeout => if a + 1 < cutoff then some (retryWait jitter a) else none
  | .connError => if a + 1 < cutoff then some (retryWait jitter a) else none
  | .otherError => none

/-- Sleep schedule of a run that exhausts its whole attempt budget. -/
def backoffSchedule (oracle : ℕ → HttpEvent) (jitter : ℕ → ℚ) (max_retries : ℕ) : List ℚ :=
  (List.range max_retries).filterMap (sleepOf oracle jitter max_retries)

lemma downloadGo_exhaust (oracle : ℕ → HttpEvent) (jitter : ℕ → ℚ) :
    ∀ (remaining attempt : ℕ),
      (∀ a, attempt ≤ a → a < attempt + remaining → noSuccess (oracle a)) →
      downloadGo oracle jitter attempt remaining =
        ⟨none, remaining,
          (List.range' attempt remaining).filterMap
            (sleepOf oracle jitter (attempt + remaining))⟩ := by
  intro remaining
  induction remaining with
  | zero => intro attempt _; simp [downloadGo, List.range']
  | succ remaining ih =>
    intro attempt h
    have hA : noSuccess (oracle attempt) := h attempt le_rfl (by omega)
    have hrec : downloadGo oracle jitter (attempt + 1) remaining =
        ⟨none, remaining,
          (List.range' (attempt + 1) remaining).filterMap
            (sleepOf oracle jitter (attempt + 1 + remaining))⟩ :=
      ih (attempt + 1) (fun a h1 h2 => h a (by omega) (by omega))
    have hcut : attempt + 1 + remaining = attempt + (remaining + 1) := by omega
    rw [hcut] at hrec
    have hrange : List.range' attempt (remaining + 1) =
        attempt :: List.range' (attempt + 1) remaining := List.range'_succ ..
    cases ho : oracle attempt with
    | response s body =>
      have hns : ¬(s = 200 ∧ body ≠ []) := by
        have := hA; rw [ho] at this; exact this
      by_cases h429 : s = 429
      · simp [downloadGo, ho, hns, h429, hrec, hrange, sleepOf]
      · simp [downloadGo, ho, hns, h429, hrec, hrange, sleepOf]
    | timeout =>
      by_cases hr : 1 ≤ remaining
      · have hc : attempt + 1 < attempt + (remaining + 1) := by omega
        simp [downloadGo, ho, hrec, hr, hrange, sleepOf, hc]
      · have hc : ¬(attempt + 1 < attempt + (remaining + 1)) := by omega
        simp [downloadGo, ho, hrec, hr, hrange, sleepOf, hc]
    | connError =>
      by_cases hr : 1 ≤ remaining
      · have hc : attempt + 1 < attempt + (remaining + 1) := by omega
        simp [downloadGo, ho, hrec, hr, hrange, sleepOf, hc]
      · have hc : ¬(attempt + 1 < attempt + (remaining + 1)) := by omega
        simp [downloadGo, ho, hrec, hr, hrange, sleepOf, hc]
    | otherError =>
      exact absurd hA (by rw [ho]; exact not_false)

lemma downloadGo_payload (oracle : ℕ → HttpEvent) (jitter : ℕ → ℚ) :
    ∀ (remaining attempt : ℕ) (p : List ℕ),
      (downloadGo oracle jitter attempt remaining).payload = some p →
      ∃ a, attempt ≤ a ∧ a < attempt + remaining ∧
        oracle a = .response 200 p ∧ p ≠ [] := by
  intro remaining
  induction remaining with
  | zero => intro attempt p hp; simp [downloadGo] at hp
  | succ remaining ih =>
    intro attempt p hp
    have widen : ∀ q : List ℕ,
        (downloadGo oracle jitter (attempt + 1) remaining).payload = some q →
        ∃ a, attempt ≤ a ∧ a < attempt + (remaining + 1) ∧
          oracle a = .response 200 q ∧ q ≠ [] := by
      intro q hq
      obtain ⟨a, h1, h2, h3, h4⟩ := ih (attempt + 1) q hq
      exact ⟨a, by omega, by omega, h3, h4⟩
    cases ho : oracle attempt with
    | response s body =>
      by_cases hsb : s = 200 ∧ body ≠ []
      · rw [show downloadGo oracle jitter attempt (remaining + 1) =
            ⟨some body, 1, []⟩ by simp only [downloadGo, ho, if_pos hsb]] at hp
        have hbp : body = p := by simpa using hp
        subst hbp
        exact ⟨attempt, le_rfl, by omega, by rw [ho, hsb.1], hsb.2⟩
      · by_cases h429 : s = 429
        · rw [show (downloadGo oracle jitter attempt (remaining + 1)).payload =
              (downloadGo oracle jitter (attempt + 1) remaining).payload by
              simp only [downloadGo, ho, if_neg hsb, if_pos h429]] at hp
          exact widen p hp
        · rw [show (downloadGo oracle jitter attempt (remaining + 1)).payload =
              (downloadGo oracle jitter (attempt + 1) remaining).payload by
              simp only [downloadGo, ho, if_neg hsb, if_neg h429]] at hp
          exact widen p hp
    | timeout =>
      rw [show (downloadGo oracle jitter attempt (remaining + 1)).payload =
          (downloadGo oracle jitter (attempt + 1) remaining).payload by
          simp only [downloadGo, ho]] at hp
      exact widen p hp
    | connError =>
      rw [show (downloadGo oracle jitter attempt (remaining + 1)).payload =
          (downloadGo oracle jitter (attempt + 1) remaining).payload by
          simp only [downloadGo, ho]] at hp
      exact widen p hp
    | otherError =>
      rw [show downloadGo oracle jitter attempt (remaining + 1) = ⟨none, 1, []⟩ by
          simp only [downloadGo, ho]] at hp
      simp at hp

/-- C2 counterexample: against an endpoint that always answers HTTP 404,
`download_wms_tile` issues five `requests.get` calls, not one — the
`else` arm on source lines 53-54 only logs and the loop falls through to
the next attempt.  The call does return a failure outcome (`None`). -/
theorem download_404_five_attempts :
    (download_wms_tile (fun _ => .response 404 []) (fun _ => 0) 5).requests = 5 ∧
    (download_wms_tile (fun _ => .response 404 []) (fun _ => 0) 5).requests ≠ 1 ∧
    (download_wms_tile (fun _ => .response 404 []) (fun _ => 0) 5).payload = none := by
  refine ⟨rfl, by decide, rfl⟩

/-- C2 (amended): for every response whose status is neither a success
(200 with non-empty body) nor 429, the Fetch Worker logs the status and
immediately moves on to the next attempt without any backoff sleep; if
every attempt ends this way it makes `max_retries` attempts in total and
returns a failure outcome with no payload and no sleeps. -/
theorem download_other_status_exhausts (oracle : ℕ → HttpEvent) (jitter : ℕ → ℚ)
    (max_retries : ℕ)
    (h : ∀ a < max_retries, ∃ s body, oracle a = .response s body ∧
        ¬(s = 200 ∧ body ≠ []) ∧ s ≠ 429) :
    download_wms_tile oracle jitter max_retries = ⟨none, max_retries, []⟩ := by
  have hns : ∀ a, 0 ≤ a → a < 0 + max_retries → noSuccess (oracle a) := by
    intro a _ ha
    obtain ⟨s, body, ho, hn, _⟩ := h a (by omega)
    rw [ho]; exact hn
  rw [download_wms_tile, downloadGo_exhaust oracle jitter max_retries 0 hns]
  have : (List.range' 0 max_retries).filterMap
      (sleepOf oracle jitter (0 + max_retries)) = [] := by
    rw [List.filterMap_eq_nil_iff]
    intro a ha
    rw [List.mem_range'_1] at ha
    obtain ⟨s, body, ho, _, h429⟩ := h a (by omega)
    simp [sleepOf, ho, h429]
  rw [this]

/-- Witness for `download_other_status_exhausts` at a concrete oracle that
always answers HTTP 500. -/
theorem download_other_status_exhausts_witness :
    download_wms_tile (fun _ => .response 500 [3]) (fun _ => 0) 5 = ⟨none, 5, []⟩ :=
  download_other_status_exhausts _ _ _
    (fun a _ => ⟨500, [3], rfl, by simp, by simp⟩)

/-- C7 counterexample: with every attempt ending in a timeout, all five
attempts fail on the retryable path, yet only four backoff sleeps occur
(`[1, 2, 4, 8]` with zero jitter): the guard `attempt < max_retries - 1`
on source line 58 skips the wait after the final attempt, so the worker
does not wait on every retryable failure as the claim states. -/
theorem download_timeout_four_sleeps :
    (download_wms_tile (fun _ => .timeout) (fun _ => 0) 5).sleeps = [1, 2, 4, 8] ∧
    ([1, 2, 4, 8] : List ℚ).length ≠ 5 ∧
    (download_wms_tile (fun _ => .timeout) (fun _ => 0) 5).requests = 5 ∧
    (download_wms_tile (fun _ => .timeout) (fun _ => 0) 5).payload = none := by
  have h := downloadGo_exhaust (fun _ => .timeout) (fun _ => 0) 5 0
    (fun a _ _ => trivial)
  refine ⟨?_, by decide, ?_, ?_⟩
  · rw [download_wms_tile, h]
    norm_num [List.range', sleepOf, retryWait, List.filterMap_cons]
  · rw [download_wms_tile, h]
  · rw [download_wms_tile, h]

/-- C7 (amended): when every attempt fails on the retryable path (HTTP
429, timeout, or connection error), the worker makes exactly
`max_retries` attempts (default 5), returns a failure outcome with no
payload, and sleeps `2 ^ attempt + jitter attempt` seconds — with no cap
applied — after every 429, and after every timeout/connection error
except the one on the final attempt (`sleepOf` spells out this
schedule). -/
theorem download_retry_backoff (oracle : ℕ → HttpEvent) (jitter : ℕ → ℚ)
    (max_retries : ℕ) (h : ∀ a < max_retries, retryable (oracle a)) :
    download_wms_tile oracle jitter max_retries =
      ⟨none, max_retries, backoffSchedule oracle jitter max_retries⟩ := by
  have hns : ∀ a, 0 ≤ a → a < 0 + max_retries → noSuccess (oracle a) := by
    intro a _ ha
    have hr := h a (by omega)
    cases ho : oracle a with
    | response s body =>
      rw [ho] at hr
      rw [noSuccess]
      rintro ⟨h200, -⟩
      rw [retryable] at hr
      omega
    | timeout => rw [noSuccess]; trivial
    | connError => rw [noSuccess]; trivial
    | otherError => rw [ho] at hr; exact absurd hr (by rw [retryable]; exact not_false)
  rw [download_wms_tile, downloadGo_exhaust oracle jitter max_retries 0 hns,
    backoffSchedule, List.range_eq_range', Nat.zero_add]

/-- Witness for `download_retry_backoff` at a concrete oracle that always
answers HTTP 429. -/
theorem download_retry_backoff_witness :
    download_wms_tile (fun _ => .response 429 [1]) (fun _ => 0) 5 =
      ⟨none, 5, backoffSchedule (fun _ => .response 429 [1]) (fun _ => 0) 5⟩ :=
  download_retry_backoff _ _ _ (fun _ _ => rfl)

/-- C10: an HTTP 200 response with an empty body is not a success — the
condition on source line 46 requires `len(response.content) > 0`, so such
a response falls into the generic `else` arm, the loop keeps attempting
up to `max_retries` times, and the call returns `None` (with no backoff
sleeps) when every attempt ends that way; conversely any returned payload
comes from some attempt that received a 200 response with that non-empty
body. -/
theorem empty_body_200_not_success (oracle : ℕ → HttpEvent) (jitter : ℕ → ℚ)
    (max_retries : ℕ) :
    ((∀ a < max_retries, oracle a = .response 200 []) →
      download_wms_tile oracle jitter max_retries = ⟨none, max_retries, []⟩)
    ∧ ∀ p, (download_wms_tile oracle jitter max_retries).payload = some p →
        ∃ a, a < max_retries ∧ oracle a = .response 200 p ∧ p ≠ [] := by
  constructor
  · intro h
    have hns : ∀ a, 0 ≤ a → a < 0 + max_retries → noSuccess (oracle a) := by
      intro a _ ha
      rw [h a (by omega), noSuccess]
      rintro ⟨-, hne⟩
      exact hne rfl
    rw [download_wms_tile, downloadGo_exhaust oracle jitter max_retries 0 hns]
    have : (List.range' 0 max_retries).filterMap
        (sleepOf oracle jitter (0 + max_retries)) = [] := by
      rw [List.filterMap_eq_nil_iff]
      intro a ha
      rw [List.mem_range'_1] at ha
      simp [sleepOf, h a (by omega)]
    rw [this]
  · intro p hp
    obtain ⟨a, _, h2, h3, h4⟩ :=
      downloadGo_payload oracle jitter max_retries 0 p hp
    exact ⟨a, by omega, h3, h4⟩

/-- Witness for `empty_body_200_not_success` at a concrete oracle that
always answers HTTP 200 with an empty body. -/
theorem empty_body_200_not_success_witness :
    download_wms_tile (fun _ => .response 200 []) (fun _ => 0) 5 = ⟨none, 5, []⟩ :=
  (empty_body_200_not_success (fun _ => .response 200 []) (fun _ => 0) 5).1
    (fun _ _ => rfl)

/-- Row of the `tiles` table: `(zoom_level, tile_column, tile_row,
tile_data)` (source lines 97-98).  Python integers are unbounded, so the
coordinates are `ℤ`; `tile_row` holds the TMS row. -/
structure TileRec where
  z : ℕ
  x : ℤ
  row : ℤ
  data : List ℕ
deriving DecidableEq

/-- TMS row inversion `tms_y = (2**zoom - 1) - y`, written inline on
source lines 103 and 172. -/
def tmsRow (z : ℕ) (y : ℤ) : ℤ := (2 ^ z - 1) - y

/-- Point lookup on the unique index `(zoom_level, tile_column,
tile_row)` (source line 99): true when some stored row carries exactly
this key. -/
def keyExists (tiles : List TileRec) (z : ℕ) (x row : ℤ) : Bool :=
  decide (∃ t ∈ tiles, t.z = z ∧ t.x = x ∧ t.row = row)

lemma keyExists_iff (tiles : List TileRec) (z : ℕ) (x row : ℤ) :
    keyExists tiles z x row = true ↔ ∃ t ∈ tiles, t.z = z ∧ t.x = x ∧ t.row = row :=
  decide_eq_true_iff

/-- Number of stored rows carrying a given key; the unique index keeps
this at most 1. -/
def keyCount (tiles : List TileRec) (z : ℕ) (x row : ℤ) : ℕ :=
  (tiles.filter fun t => decide (t.z = z ∧ t.x = x ∧ t.row = row)).length

/-- The script's single sqlite3 connection: the rows already committed to
the archive file, and the rows inserted since the last `conn.commit()`
(held in the connection's open transaction). -/
structure Conn where
  committed : List TileRec
  uncommitted : List TileRec
deriving DecidableEq

/-- Rows visible to queries on this connection: committed rows plus the
open transaction's inserts (sqlite sees both through one connection). -/
def Conn.view (c : Conn) : List TileRec := c.committed ++ c.uncommitted

/-- Embedding of `conn.commit()` (source line 198): the open
transaction's inserts become durable. -/
def Conn.commit (c : Conn) : Conn := ⟨c.committed ++ c.uncommitted, []⟩

/-- Embedding of `conn.close()` (source line 206).  Python's
`sqlite3.Connection.close` does not commit: the open transaction is
rolled back, so only the committed rows survive in the file. -/
def Conn.close (c : Conn) : List TileRec := c.committed

/-- Embedding of `tile_exists` (source lines 102-106): convert the XYZ
row to the TMS row once, then point-lookup the triple. -/
def tile_exists (tiles : List TileRec) (z : ℕ) (x y : ℤ) : Bool :=
  keyExists tiles z x (tmsRow z y)

/-- Record enqueued by `download_tile_worker` for a successful fetch
(source lines 172-174): the TMS inversion is applied here, once, at write
time. -/
def queuedRecord (z : ℕ) (x y : ℤ) (d : List ℕ) : TileRec :=
  ⟨z, x, tmsRow z y, d⟩

/-- Embedding of the guarded insert on source lines 191-195: `INSERT INTO
tiles` raises `sqlite3.IntegrityError` exactly when a visible row already
carries the key `(zoom_level, tile_column, tile_row)`; the handler
swallows the error and logs the duplicate.  The `Bool` reports whether
the duplicate path was taken; no error escapes in either case. -/
def insertTile (cn : Conn) (r : TileRec) : Conn × Bool :=
  if keyExists cn.view r.z r.x r.row then (cn, true)
  else ({ cn with uncommitted := cn.uncommitted ++ [r] }, false)

/-- C4: the worker stores the TMS inversion of the XYZ row, and the
existence lookup applies the same inversion, so a tile written for
`(z, x, y)` is found by `tile_exists` for the same `(z, x, y)`; and on
the valid row range the inversion is an involution. -/
theorem tms_row_inversion (z : ℕ) :
    (∀ (x y : ℤ) (d : List ℕ), (queuedRecord z x y d).row = (2 ^ z - 1) - y)
    ∧ (∀ (x y : ℤ) (d : List ℕ) (cn : Conn),
        tile_exists ((insertTile cn (queuedRecord z x y d)).1).view z x y = true)
    ∧ ∀ row : ℤ, 0 ≤ row → row ≤ 2 ^ z - 1 → tmsRow z (tmsRow z row) = row := by
  refine ⟨fun x y d => rfl, ?_, ?_⟩
  · intro x y d cn
    simp only [insertTile, queuedRecord]
    by_cases hk : keyExists cn.view z x (tmsRow z y) = true
    · rw [if_pos hk]
      exact hk
    · rw [if_neg hk, tile_exists, keyExists_iff]
      exact ⟨⟨z, x, tmsRow z y, d⟩, by simp [Conn.view], rfl, rfl, rfl⟩
  · intro row _ _
    rw [tmsRow, tmsRow]
    ring

/-- Witness for `tms_row_inversion` at zoom 3, tile (2, 5), on an empty
connection. -/
theorem tms_row_inversion_witness :
    (queuedRecord 3 2 5 [9]).row = 2 ∧
    tile_exists ((insertTile ⟨[], []⟩ (queuedRecord 3 2 5 [9])).1).view 3 2 5 = true ∧
    tmsRow 3 (tmsRow 3 5) = 5 :=
  ⟨(tms_row_inversion 3).1 2 5 [9], (tms_row_inversion 3).2.1 2 5 [9] ⟨[], []⟩,
    (tms_row_inversion 3).2.2 5 (by decide) (by decide)⟩

/-- C6: inserting a record whose key is already archived takes the
`IntegrityError` path: the connection state is unchanged, the duplicate
is reported (logged, line 195) rather than raised — `insertTile` is a
total function, the run continues — and exactly one record with that key
remains visible. -/
theorem duplicate_insert_benign (cn : Conn) (r : TileRec)
    (h : keyCount cn.view r.z r.x r.row = 1) :
    insertTile cn r = (cn, true) ∧
    keyCount (insertTile cn r).1.view r.z r.x r.row = 1 := by
  have hex : keyExists cn.view r.z r.x r.row = true := by
    rw [keyExists_iff]
    have hpos : 0 < (cn.view.filter fun t =>
        decide (t.z = r.z ∧ t.x = r.x ∧ t.row = r.row)).length := by
      rw [keyCount] at h; omega
    obtain ⟨t, ht⟩ := List.exists_mem_of_length_pos hpos
    rw [List.mem_filter] at ht
    exact ⟨t, ht.1, of_decide_eq_true ht.2⟩
  have hins : insertTile cn r = (cn, true) := by rw [insertTile, if_pos hex]
  exact ⟨hins, by rw [hins]; exact h⟩

/-- Witness for `duplicate_insert_benign`: a one-row archive receiving a
second write for the same key. -/
theorem duplicate_insert_benign_witness :
    insertTile ⟨[⟨1, 2, 3, [9]⟩], []⟩ ⟨1, 2, 3, [5]⟩ = (⟨[⟨1, 2, 3, [9]⟩], []⟩, true) ∧
    keyCount (insertTile ⟨[⟨1, 2, 3, [9]⟩], []⟩ ⟨1, 2, 3, [5]⟩).1.view 1 2 3 = 1 :=
  duplicate_insert_benign ⟨[⟨1, 2, 3, [9]⟩], []⟩ ⟨1, 2, 3, [5]⟩ (by decide)

/-- Geographic bounds rectangle in degrees (source lines 68-81), as exact
rationals. -/
structure Bounds where
  min_lat : ℚ
  max_lat : ℚ
  min_lon : ℚ
  max_lon : ℚ
deriving DecidableEq

/-- Wide tier (source lines 68-73): full service extent including the
Chatham Islands and the dateline. -/
def wide_bounds : Bounds := ⟨-56.33, -25.19, -180, 180⟩

/-- Narrow tier (source lines 76-81): main NZ landmass. -/
def narrow_bounds : Bounds := ⟨-47.5, -34, 166, 179⟩

/-- Tier selection on source line 131:
`wide_bounds if 1 <= zoom <= 9 else narrow_bounds`. -/
def current_bounds (zoom : ℕ) : Bounds :=
  if 1 ≤ zoom ∧ zoom ≤ 9 then wide_bounds else narrow_bounds

/-- C5: the bounds tier is selected purely by zoom level — the wide tier
exactly for zoom 1 through 9 inclusive, the narrow tier for every other
zoom level (0 and 10 and above). -/
theorem bounds_tier_by_zoom (zoom : ℕ) :
    (current_bounds zoom = wide_bounds ↔ 1 ≤ zoom ∧ zoom ≤ 9) ∧
    (current_bounds zoom = narrow_bounds ↔ ¬(1 ≤ zoom ∧ zoom ≤ 9)) := by
  have hne : wide_bounds ≠ narrow_bounds := by
    simp only [wide_bounds, narrow_bounds, ne_eq, Bounds.mk.injEq]
    norm_num
  by_cases h : 1 ≤ zoom ∧ zoom ≤ 9
  · rw [current_bounds, if_pos h]
    exact ⟨⟨fun _ => h, fun _ => rfl⟩, ⟨fun he => absurd he hne, fun hn => absurd h hn⟩⟩
  · rw [current_bounds, if_neg h]
    exact ⟨⟨fun he => absurd he.symm hne, fun hh => absurd hh h⟩,
      ⟨fun _ => h, fun _ => rfl⟩⟩

/-- Witness for `bounds_tier_by_zoom` at zoom 5 (wide) and zoom 12
(narrow). -/
theorem bounds_tier_by_zoom_witness :
    current_bounds 5 = wide_bounds ∧ current_bounds 12 = narrow_bounds :=
  ⟨(bounds_tier_by_zoom 5).1.mpr (by decide), (bounds_tier_by_zoom 12).2.mpr (by decide)⟩

/-- Clamped tile-index rectangle for one zoom level (source lines
134-140).  Its corners come from `deg2num` at the tier bounds; the
orchestrator model takes it as a parameter because the row corner
evaluates `asinh (tan lat)`, and no claim below depends on its numeric
value. -/
structure Rect where
  xMin : ℤ
  xMax : ℤ
  yMin : ℤ
  yMax : ℤ

/-- Python `range(a, b + 1)` over unbounded integers. -/
def intRange (a b : ℤ) : List ℤ := (List.range (b + 1 - a).toNat).map fun i => a + i

/-- Enumeration order of the nested loops on source lines 145-146:
columns outer, rows inner. -/
def rectTiles (r : Rect) : List (ℤ × ℤ) :=
  (intRange r.xMin r.xMax).flatMap fun x => (intRange r.yMin r.yMax).map fun y => (x, y)

/-- Work-set construction of source lines 142-150: every coordinate of
the rectangle whose record is not already visible in the archive, in
enumeration order (existing tiles are counted and skipped, not
dispatched). -/
def tile_list (tiles : List TileRec) (z : ℕ) (r : Rect) : List (ℤ × ℤ) :=
  (rectTiles r).filter fun p => !tile_exists tiles z p.1 p.2

/-- One completed `download_tile_worker` future drained by the main
thread (source lines 168-176 and 188-195): a fetch result is enqueued
and inserted only when it is truthy (`if tile_data:` — a `None` or empty
payload is dropped and no record is written). -/
def drainInsert (fetch : ℕ → ℤ → ℤ → Option (List ℕ)) (z : ℕ)
    (cn : Conn) (p : ℤ × ℤ) : Conn :=
  match fetch z p.1 p.2 with
  | some d => if d.isEmpty then cn else (insertTile cn (queuedRecord z p.1 p.2 d)).1
  | none => cn

/-- Handling of one completed future in the drain loop (source lines
182-198): drain the worker's insert, advance the progress counter
(`pbar.update(1)`), and `conn.commit()` whenever the per-zoom completion
count reaches a multiple of 10 (lines 197-198). -/
def processTile (fetch : ℕ → ℤ → ℤ → Option (List ℕ)) (z : ℕ)
    (st : Conn × ℕ) (p : ℤ × ℤ) : Conn × ℕ :=
  if (st.2 + 1) % 10 = 0 then ((drainInsert fetch z st.1 p).commit, st.2 + 1)
  else (drainInsert fetch z st.1 p, st.2 + 1)

/-- One zoom level of the orchestrator (source lines 127-203): build the
pending work set against the connection's current view, then fold the
drain loop over it with the completion counter starting at 0 (a fresh
`tqdm` bar per zoom).  Completion order is modelled as submission
order — one admissible schedule of the three-worker pool. -/
def processZoom (fetch : ℕ → ℤ → ℤ → Option (List ℕ)) (cn : Conn)
    (z : ℕ) (r : Rect) : Conn :=
  ((tile_list cn.view z r).foldl (processTile fetch z) (cn, 0)).1

/-- Worker success count for one zoom level (`successful_tiles`, source
lines 164, 183-184): completed futures whose `download_tile_worker`
returned `True`, i.e. whose fetch result was truthy. -/
def tile_truthy (fetch : ℕ → ℤ → ℤ → Option (List ℕ)) (z : ℕ) (p : ℤ × ℤ) : Bool :=
  match fetch z p.1 p.2 with
  | some d => !d.isEmpty
  | none => false

/-- Count of successful worker results for one zoom level's work set. -/
def successful_tiles (fetch : ℕ → ℤ → ℤ → Option (List ℕ))
    (tiles : List TileRec) (z : ℕ) (r : Rect) : ℕ :=
  List.countP (tile_truthy fetch z) (tile_list tiles z r)

/-- The zoom loop `for zoom in range(min_zoom, max_zoom + 1)` (source
line 127), threading the single connection through every zoom level. -/
def runZooms (fetch : ℕ → ℤ → ℤ → Option (List ℕ)) (rect : ℕ → Rect)
    (min_zoom max_zoom : ℕ) (cn : Conn) : Conn :=
  (List.range' min_zoom (max_zoom + 1 - min_zoom)).foldl
    (fun c z => processZoom fetch c z (rect z)) cn

/-- Tile rows present in the archive file after a full run: open the
connection on the existing rows, run every zoom level, then
`conn.close()` (source line 206) — with no final `conn.commit()`, so the
open transaction's inserts are rolled back. -/
def runPipeline (fetch : ℕ → ℤ → ℤ → Option (List ℕ)) (rect : ℕ → Rect)
    (min_zoom max_zoom : ℕ) (tiles0 : List TileRec) : List TileRec :=
  Conn.close (runZooms fetch rect min_zoom max_zoom ⟨tiles0, []⟩)

/-- Metadata rows inserted at archive creation (source lines 109-123);
the `bounds` value is formatted from the narrow tier. -/
def metadataRows (min_zoom max_zoom : ℕ) : List (String × String) :=
  [("name", "NZ Emergency Management"),
   ("type", "baselayer"),
   ("version", "1.0.0"),
   ("description", "National Map Emergency Management"),
   ("format", "png"),
   ("bounds", "166.0,-47.5,179.0,-34.0"),
   ("center", "173.0,-41.0,6"),
   ("minzoom", toString min_zoom),
   ("maxzoom", toString max_zoom),
   ("attribution", "Â© NationalMap WMS Basemap Service CC BY-NC-ND 4.0")]

/-- Contents of the archive file: the `metadata` table and the `tiles`
table. -/
structure ArchiveFile where
  metadata : List (String × String)
  tiles : List TileRec
deriving DecidableEq

/-- Startup of `create_nationalmap_mbtiles` (source lines 86-123):
`resuming = os.path.exists(output_file)`; when the file exists the run
resumes on it untouched — no `CREATE TABLE`, no `CREATE UNIQUE INDEX`,
no metadata insert (all three sit under `if not resuming:`); when it does
not, the schema is created empty and the metadata rows are inserted. -/
def initArchive (min_zoom max_zoom : ℕ) (existing : Option ArchiveFile) : ArchiveFile :=
  match existing with
  | some st => st
  | none => ⟨metadataRows min_zoom max_zoom, []⟩

/-- Embedding of the whole `create_nationalmap_mbtiles` run (source
lines 66-207): initialise or resume the archive, run the zoom loop, and
close the connection.  The zoom loop never writes to the metadata table.
On a fresh run the metadata inserts are executed on the connection; their
durability additionally requires a later commit, which the claims below
do not address. -/
def create_nationalmap_mbtiles (fetch : ℕ → ℤ → ℤ → Option (List ℕ))
    (rect : ℕ → Rect) (min_zoom max_zoom : ℕ)
    (existing : Option ArchiveFile) : ArchiveFile :=
  ⟨(initArchive min_zoom max_zoom existing).metadata,
    runPipeline fetch rect min_zoom max_zoom
      (initArchive min_zoom max_zoom existing).tiles⟩

lemma insertTile_committed (cn : Conn) (r : TileRec) :
    (insertTile cn r).1.committed = cn.committed := by
  rw [insertTile]
  split <;> rfl

lemma drainInsert_committed (fetch : ℕ → ℤ → ℤ → Option (List ℕ)) (z : ℕ)
    (cn : Conn) (p : ℤ × ℤ) :
    (drainInsert fetch z cn p).committed = cn.committed := by
  rw [drainInsert]
  cases fetch z p.1 p.2 with
  | none => rfl
  | some d =>
    by_cases hd : d.isEmpty
    · simp [hd]
    · simp [hd, insertTile_committed]

lemma processTile_committed (fetch : ℕ → ℤ → ℤ → Option (List ℕ)) (z : ℕ)
    (st : Conn × ℕ) (p : ℤ × ℤ) :
    ∃ s, (processTile fetch z st p).1.committed = st.1.committed ++ s := by
  rw [processTile]
  by_cases hn : (st.2 + 1) % 10 = 0
  · rw [if_pos hn]
    exact ⟨(drainInsert fetch z st.1 p).uncommitted,
      by rw [Conn.commit, drainInsert_committed]⟩
  · rw [if_neg hn]
    exact ⟨[], by rw [drainInsert_committed, List.append_nil]⟩

lemma foldl_processTile_committed (fetch : ℕ → ℤ → ℤ → Option (List ℕ)) (z : ℕ) :
    ∀ (l : List (ℤ × ℤ)) (st : Conn × ℕ),
      ∃ s, ((l.foldl (processTile fetch z) st).1).committed = st.1.committed ++ s := by
  intro l
  induction l with
  | nil => intro st; exact ⟨[], (List.append_nil _).symm⟩
  | cons p l ih =>
    intro st
    obtain ⟨s1, h1⟩ := processTile_committed fetch z st p
    obtain ⟨s2, h2⟩ := ih (processTile fetch z st p)
    rw [List.foldl_cons]
    exact ⟨s1 ++ s2, by rw [h2, h1, List.append_assoc]⟩

lemma processZoom_committed (fetch : ℕ → ℤ → ℤ → Option (List ℕ)) (cn : Conn)
    (z : ℕ) (r : Rect) :
    ∃ s, (processZoom fetch cn z r).committed = cn.committed ++ s :=
  foldl_processTile_committed fetch z (tile_list cn.view z r) (cn, 0)

lemma zoomFold_committed (fetch : ℕ → ℤ → ℤ → Option (List ℕ)) (rect : ℕ → Rect) :
    ∀ (zs : List ℕ) (cn : Conn),
      ∃ s, (zs.foldl (fun c z => processZoom fetch c z (rect z)) cn).committed =
        cn.committed ++ s := by
  intro zs
  induction zs with
  | nil => intro cn; exact ⟨[], (List.append_nil _).symm⟩
  | cons z zs ih =>
    intro cn
    obtain ⟨s1, h1⟩ := processZoom_committed fetch cn z (rect z)
    obtain ⟨s2, h2⟩ := ih (processZoom fetch cn z (rect z))
    rw [List.foldl_cons]
    exact ⟨s1 ++ s2, by rw [h2, h1, List.append_assoc]⟩

/-- C9: a run against an existing archive file resumes it as-is — the
metadata rows are exactly the old ones (no write or update touches them,
and no schema is re-created, since all creation statements sit under
`if not resuming:`), and every previously stored tile record is still
present, in place, at the end of the run (the run only ever appends);
schema creation and metadata insertion happen only when the file did not
previously exist, in which case the inserted metadata is exactly the
fixed row set. -/
theorem resume_preserves_archive (fetch : ℕ → ℤ → ℤ → Option (List ℕ))
    (rect : ℕ → Rect) (min_zoom max_zoom : ℕ) (st : ArchiveFile) :
    (∃ rest, create_nationalmap_mbtiles fetch rect min_zoom max_zoom (some st) =
        ⟨st.metadata, st.tiles ++ rest⟩)
    ∧ initArchive min_zoom max_zoom (some st) = st
    ∧ initArchive min_zoom max_zoom none = ⟨metadataRows min_zoom max_zoom, []⟩ := by
  refine ⟨?_, rfl, rfl⟩
  obtain ⟨s, hs⟩ := zoomFold_committed fetch rect
    (List.range' min_zoom (max_zoom + 1 - min_zoom)) ⟨st.tiles, []⟩
  exact ⟨s, by
    rw [create_nationalmap_mbtiles, initArchive, runPipeline, runZooms, Conn.close, hs]⟩

/-- Helper fetch oracle for the C1 scenario: at zoom 5, column 0, only
rows 0 and 20 fetch successfully; every other fetch fails. -/
def fetch_c1 : ℕ → ℤ → ℤ → Option (List ℕ) := fun z x y =>
  if z = 5 ∧ x = 0 ∧ (y = 0 ∨ y = 20) then some [1] else none

/-- Helper rectangle for the C1 scenario: one column, rows 0 through 20
(21 pending tiles). -/
def rect_c1 : ℕ → Rect := fun _ => ⟨0, 0, 0, 20⟩

/-- C1: evaluation of the pipeline at a concrete input where the claimed
row-count idempotence fails.  Run 1 (fresh archive, zoom 5 only, a 1×21
rectangle, fetches succeeding for rows 0 and 20 only) commits the row-0
tile at completion 10 but inserts the row-20 tile at completion 21, after
the last periodic commit, and `conn.close()` rolls it back: the archive
ends with 1 row.  Run 2 against that archive correctly issues no fetch
for the archived tile `(0, 0)` — the exclusion half of the claim holds —
but re-dispatches the rolled-back tile, whose insert now lands at
completion 20 and is committed: the archive ends with 2 rows, so the
second run does not leave the per-zoom row count unchanged. -/
theorem second_run_changes_row_count :
    (create_nationalmap_mbtiles fetch_c1 rect_c1 5 5 none).tiles.length = 1 ∧
    ((0 : ℤ), (0 : ℤ)) ∉
      tile_list (create_nationalmap_mbtiles fetch_c1 rect_c1 5 5 none).tiles 5 (rect_c1 5) ∧
    (create_nationalmap_mbtiles fetch_c1 rect_c1 5 5
        (some (create_nationalmap_mbtiles fetch_c1 rect_c1 5 5 none))).tiles.length = 2 := by
  exact ⟨by decide, by decide, by decide⟩

/-- Helper fetch oracle for the C3 scenario: every fetch succeeds. -/
def fetch_c3 : ℕ → ℤ → ℤ → Option (List ℕ) := fun _ _ _ => some [7]

/-- Helper rectangle for the C3 scenario: one column, rows 0 through 2
(3 pending tiles). -/
def rect_c3 : ℕ → Rect := fun _ => ⟨0, 0, 0, 2⟩

/-- C3: evaluation of the pipeline at a concrete input showing that no
final commit is flushed at the terminal state.  A fresh run over a single
zoom level with 3 pending tiles, all of whose fetches succeed, inserts
all 3 records, but the per-zoom completion count never reaches 10, so no
periodic commit fires, and `conn.close()` on source line 206 — reached
with no final `conn.commit()` — rolls the open transaction back: the
archive file ends with 0 tile rows even though 3 tiles were fetched,
enqueued, inserted, and counted as successful. -/
theorem final_batch_rolled_back :
    (create_nationalmap_mbtiles fetch_c3 rect_c3 2 2 none).tiles = [] ∧
    successful_tiles fetch_c3 [] 2 (rect_c3 2) = 3 := by
  exact ⟨by decide, by decide⟩

/-- Python's `int()` applied to a rational: truncation toward zero — the
floor for nonnegative operands, the negated floor of the negation (the
ceiling) for negative ones. -/
def pyInt (q : ℚ) : ℤ := if q < 0 then -⌊-q⌋ else ⌊q⌋

/-- Column component of `deg2num` (source line 18):
`int((lon_deg + 180.0) / 360.0 * n)` with `n = 2.0 ** zoom`, over exact
rationals.  The row component on line 19 evaluates `asinh (tan lat_rad)`
and is not embedded; it applies the same `int()` truncation. -/
def deg2num_xtile (lon : ℚ) (zoom : ℕ) : ℤ :=
  pyInt ((lon + 180) / 360 * 2 ^ zoom)

/-- Column formula as the spec states it:
`floor((lon + 180) / 360 * 2 ^ zoom)`.  Stated for comparison with
`deg2num_xtile`, which embeds the source. -/
def tileColumnSpec (lon : ℚ) (zoom : ℕ) : ℤ :=
  ⌊(lon + 180) / 360 * 2 ^ zoom⌋

lemma pyInt_nonneg (q : ℚ) (h : 0 ≤ q) : pyInt q = ⌊q⌋ := by
  rw [pyInt, if_neg (not_lt.mpr h)]

lemma pyInt_neg (q : ℚ) (h : q < 0) : pyInt q = ⌈q⌉ := by
  rw [pyInt, if_pos h, Int.floor_neg, neg_neg]

/-- C8 counterexample: `deg2num` does not floor.  At `lon = -200`,
`zoom = 1` the operand is `-1/9`; Python's `int()` truncates it to `0`
while the claimed floor formula gives `-1`, so the function as written
does not return `floor((lon + 180) / 360 * 2 ^ zoom)` on every input. -/
theorem deg2num_not_floor :
    deg2num_xtile (-200) 1 = 0 ∧ tileColumnSpec (-200) 1 = -1 ∧
    deg2num_xtile (-200) 1 ≠ tileColumnSpec (-200) 1 := by
  have h0 : ((-200 : ℚ) + 180) / 360 * 2 ^ 1 = -1 / 9 := by norm_num
  have hf0 : ⌊(1 / 9 : ℚ)⌋ = 0 := by
    rw [Int.floor_eq_iff]
    norm_num
  have hf1 : ⌊(-1 / 9 : ℚ)⌋ = -1 := by
    rw [Int.floor_eq_iff]
    norm_num
  have hneg : -((-1 : ℚ) / 9) = 1 / 9 := by norm_num
  have h1 : deg2num_xtile (-200) 1 = 0 := by
    rw [deg2num_xtile, h0, pyInt, if_pos (by norm_num : (-1 / 9 : ℚ) < 0), hneg, hf0]
    norm_num
  have h2 : tileColumnSpec (-200) 1 = -1 := by
    rw [tileColumnSpec, h0, hf1]
  exact ⟨h1, h2, by rw [h1, h2]; decide⟩

/-- C8 (amended): `deg2num` applies Python's `int()` — truncation toward
zero, not floor — to the slippy-map expressions, with no clamping of the
result.  For the column this means the claimed floor formula is returned
exactly when the operand is nonnegative, i.e. for every `lon ≥ -180`;
for `lon < -180` the result is the ceiling instead.  The row component
applies the same truncation to its (transcendental) operand. -/
theorem deg2num_truncates (lon : ℚ) (zoom : ℕ) :
    (-180 ≤ lon → deg2num_xtile lon zoom = tileColumnSpec lon zoom)
    ∧ (lon < -180 → deg2num_xtile lon zoom = ⌈(lon + 180) / 360 * 2 ^ zoom⌉) := by
  constructor
  · intro h
    have hq : 0 ≤ (lon + 180) / 360 * 2 ^ zoom := by
      have h1 : (0 : ℚ) ≤ (lon + 180) / 360 := by
        apply div_nonneg (by linarith) (by norm_num)
      exact mul_nonneg h1 (by positivity)
    rw [deg2num_xtile, tileColumnSpec, pyInt_nonneg _ hq]
  · intro h
    have hq : (lon + 180) / 360 * 2 ^ zoom < 0 := by
      have h1 : (lon + 180) / 360 < 0 := by
        apply div_neg_of_neg_of_pos (by linarith) (by norm_num)
      exact mul_neg_of_neg_of_pos h1 (by positivity)
    rw [deg2num_xtile, pyInt_neg _ hq]

/-- Witness for `deg2num_truncates` at `lon = 0`, `zoom = 1` (in range)
and `lon = -200`, `zoom = 0` (out of range). -/
theorem deg2num_truncates_witness :
    deg2num_xtile 0 1 = tileColumnSpec 0 1 ∧
    deg2num_xtile (-200) 0 = ⌈((-200 : ℚ) + 180) / 360 * 2 ^ 0⌉ :=
  ⟨(deg2num_truncates 0 1).1 (by norm_num),
    (deg2num_truncates (-200) 0).2 (by norm_num)⟩

end NationalMap
